import Mathlib

/-!
Shallow embedding of `src/temporal_policies/envs/pybullet/table_env.py`
(class `TableEnv`) of the STAP repository.

The pybullet physics engine, the robot, the scene objects, the geometric
predicates and the primitives live outside this source slice
(`pybullet`, `sim/robot.py`, `table/objects.py`, `table/predicates.py`,
`table/primitives.py`): only their call interfaces matter for `table_env.py`,
so they are modelled as an abstract oracle `Sim` over an abstract engine
state `Core`.  The engine-side save/restore facility
(`p.saveState` / `p.restoreState` / `p.removeState`) is modelled explicitly
as a store of snapshots, following the pybullet interface used by the code.
Scene objects are identified by their registry index `0 .. numObjects - 1`
(the iteration order of `self.objects.values()`).  Randomness
(`random.choice`, predicate samplers) is modelled by making the random state
part of `Core` and by passing the chosen task index to `reset` explicitly.
-/

namespace TableEnvModel

/-- Models `TableEnv.MAX_NUM_OBJECTS` (table_env.py line 59): number of rows in the
observation matrix. -/
def MAX_NUM_OBJECTS : Nat := 5

/-- Models `TableEnv.EE_OBSERVATION_IDX` (line 60): index of the end-effector row in
the observation matrix. -/
def EE_OBSERVATION_IDX : Nat := 0

/-- Default of the `max_attempts` parameter of `TableEnv.reset` (line 348). -/
def DEFAULT_MAX_ATTEMPTS : Nat := 10

variable {Core RState : Type}

/-- Engine-side world: the current dynamic state of the pybullet scene plus
the engine-side saved states.  `snaps` associates saved-state ids with the
engine state they captured; `nextId` models the engine's id allocation. -/
structure World (Core : Type) where
  core : Core
  snaps : List (Nat × Core)
  nextId : Nat

/-- Models `p.saveState`: the engine assigns a fresh id naming the current state. -/
def saveState (w : World Core) : World Core × Nat :=
  ({ w with snaps := (w.nextId, w.core) :: w.snaps, nextId := w.nextId + 1 },
    w.nextId)

/-- Models `p.restoreState`: restores a saved state; errors (`none`) if the id does
not name a saved state. -/
def restoreState (stateId : Nat) (w : World Core) : Option (World Core) :=
  match List.lookup stateId w.snaps with
  | none => none
  | some c => some { w with core := c }

/-- Models `p.removeState`: releases an engine-side saved state. -/
def removeState (stateId : Nat) (w : World Core) : World Core :=
  { w with snaps := w.snaps.filter (fun pr => pr.1 != stateId) }

/-- Abstract oracle for the robot, the registered objects and the geometric
predicate helpers used by `TableEnv`; these live in modules outside this
source slice and only their call interfaces matter here.
`moving c i` stands for `predicates.is_moving(obj_i.twist())`,
`belowTable c i` for `predicates.is_below_table(obj_i.pose().pos)` and
`touchingBase c i` for `predicates.is_touching(robot, obj_i, link_id_a=0)`,
each evaluated in engine state `c`.  `eeVec c` is the end-effector
`ObjectState` vector and `objVec c i` is object `i`'s state vector
(`obj.state().vector`), each of width `dim`. -/
structure Sim (Core RState : Type) where
  numObjects : Nat
  dim : Nat
  is_static : Nat → Bool
  moving : Core → Nat → Bool
  belowTable : Core → Nat → Bool
  touchingBase : Core → Nat → Bool
  armUpdateTorques : Core → Core
  gripperUpdateTorques : Core → Core
  stepSimulation : Core → Core
  robotReset : Core → Core
  groupsReset : Core → Core
  objectsReset : Core → Core
  trackerRealArm : Bool
  trackerUpdatePoses : Core → Core
  removeGrasp : Core → Core
  robotSaved : Core → RState
  robotRestore : RState → Core → Core
  eeVec : Core → List Int
  objVec : Core → Nat → List Int
  waitDefaultMaxIters : Nat

/-- An initial-state proposition (`predicates.Predicate`): `sample` attempts a
randomized placement making the predicate hold (mutating the scene) and
reports success; `value` is the pure truth check.  Both receive
`(robot, objects, initial_state)` in the code; all three are determined by
the oracle and the containing task, so here they are functions of the engine
state alone. -/
structure Pred (Core : Type) where
  sample : Core → Core × Bool
  value : Core → Bool

/-- Result of `primitive.execute` (`table/primitives.py`, outside this
slice): a success flag and a truncation flag. -/
structure ExecResult where
  success : Bool
  truncated : Bool

/-- An argument object of a primitive: its registry index `idx_object` and
whether it resolved to a `Null` object. -/
structure ArgObject where
  idx_object : Nat
  isNull : Bool

/-- A primitive bound to its argument objects (`table/primitives.py`,
outside this slice).  `exec a c` stands for
`primitive.execute(a, robot, wait_until_stable)` started in engine state
`c`; the robot and the stability-wait callback are fixed by the oracle. -/
structure Prim (Core : Type) where
  policy_args : List ArgObject
  exec : List Int → Core → Core × ExecResult

/-- Models `Task` (table_env.py lines 33-48): an action skeleton and an
initial-state specification. -/
structure TaskSpec (Core : Type) where
  action_skeleton : List (Prim Core)
  initial_state : List (Pred Core)

/-- Closure `is_any_object_moving` of `TableEnv.wait_until_stable`
(lines 448-452): some non-static object's twist exceeds the moving
threshold. -/
def is_any_object_moving (o : Sim Core RState) (c : Core) : Bool :=
  (List.range o.numObjects).any (fun i => !o.is_static i && o.moving c i)

/-- Models `TableEnv._is_any_object_below_table` (lines 430-434). -/
def is_any_object_below_table (o : Sim Core RState) (c : Core) : Bool :=
  (List.range o.numObjects).any (fun i => !o.is_static i && o.belowTable c i)

/-- Models `TableEnv._is_any_object_touching_base` (lines 436-443). -/
def is_any_object_touching_base (o : Sim Core RState) (c : Core) : Bool :=
  (List.range o.numObjects).any (fun i => !o.is_static i && o.touchingBase c i)

/-- The `while` condition of `TableEnv.wait_until_stable` (lines 455-461):
`num_iters == 0 or (num_iters < max_iters and (num_iters < min_iters or
moving) and not below_table and not touching_base)`. -/
def waitCond (o : Sim Core RState) (min_iters max_iters num_iters : Nat)
    (c : Core) : Bool :=
  num_iters == 0
    || (decide (num_iters < max_iters)
        && (decide (num_iters < min_iters) || is_any_object_moving o c)
        && !is_any_object_below_table o c
        && !is_any_object_touching_base o c)

/-- The loop of `TableEnv.wait_until_stable` (lines 454-466), fuel-indexed so
that it is structurally recursive.  Each iteration runs
`robot.arm.update_torques(); robot.gripper.update_torques();
step_simulation()` and increments `num_iters`.  The fuel only bounds the
recursion; `wait_until_stable` supplies enough fuel that it is never
exhausted (`waitAux_exit`). -/
def waitAux (o : Sim Core RState) (min_iters max_iters : Nat) :
    Nat → Core → Nat → Core × Nat
  | 0, c, n => (c, n)
  | fuel + 1, c, n =>
    if waitCond o min_iters max_iters n c then
      waitAux o min_iters max_iters fuel
        (o.stepSimulation (o.gripperUpdateTorques (o.armUpdateTorques c))) (n + 1)
    else (c, n)

/-- Models `TableEnv.wait_until_stable` (lines 445-468): returns the final engine
state together with the number of simulation iterations performed. -/
def wait_until_stable (o : Sim Core RState) (min_iters max_iters : Nat)
    (c : Core) : Core × Nat :=
  waitAux o min_iters max_iters (max_iters + 1) c 0

/-- Models `TableEnv.object_states` (lines 326-340), restricted to the state
vectors: the dict holds the end-effector state first (inserted when the
enumeration index hits `EE_OBSERVATION_IDX = 0`), then each object's state in
registry order.  Object names are pairwise distinct dict keys and none
collides with the end-effector key, so the dict values are exactly this
list.  With no registered objects the loop body never runs and the dict is
empty. -/
def object_states (o : Sim Core RState) (c : Core) : List (List Int) :=
  if o.numObjects = 0 then []
  else o.eeVec c :: (List.range o.numObjects).map (o.objVec c)

/-- Models `TableEnv.get_observation` (lines 288-305) with `image=None`: a
`np.zeros([MAX_NUM_OBJECTS, dim])` matrix whose first rows are overwritten by
the object states.  `none` models the `IndexError`/shape error numpy raises
when there are more than `MAX_NUM_OBJECTS` rows to write or a state vector
does not have width `dim`. -/
def get_observation (o : Sim Core RState) (c : Core) :
    Option (List (List Int)) :=
  let rows := object_states o c
  if rows.length ≤ MAX_NUM_OBJECTS ∧ rows.all (fun r => r.length = o.dim) then
    some (rows ++
      List.replicate (MAX_NUM_OBJECTS - rows.length) (List.replicate o.dim 0))
  else none

/-- The mutable state of a `TableEnv`: the engine world, the saved-state
cache `self._states` (id → robot state blob), the configured task list, the
current task, the current primitive and `self._initial_state_id`. -/
structure Env (Core RState : Type) where
  world : World Core
  states : List (Nat × RState)
  tasks : List (TaskSpec Core)
  task : TaskSpec Core
  primitive : Prim Core
  initId : Nat

/-- Models `TableEnv.get_state` (lines 276-279): saves the engine state, caches the
robot state under the fresh id and returns the id (the `np.array([state_id])`
wrapper is dropped). -/
def get_state (o : Sim Core RState) (e : Env Core RState) :
    Env Core RState × Nat :=
  let sv := saveState e.world
  ({ e with
      world := sv.1
      states := (sv.2, o.robotSaved e.world.core) :: e.states },
    sv.2)

/-- Models `TableEnv.set_state` (lines 281-286): removes the grasp constraint,
restores the engine state (pybullet error, i.e. `none`, on an unknown id),
restores the cached robot state (`KeyError`, i.e. `none`, when the id is not
in the cache) and returns `True`.  The grasp-constraint removal mutates the
engine state but is immediately overwritten by the full engine restore. -/
def set_state (o : Sim Core RState) (e : Env Core RState) (stateId : Nat) :
    Option (Env Core RState × Bool) :=
  match restoreState stateId
      { e.world with core := o.removeGrasp e.world.core } with
  | none => none
  | some w2 =>
    match List.lookup stateId e.states with
    | none => none
    | some blob =>
      some ({ e with world := { w2 with core := o.robotRestore blob w2.core } },
        true)

/-- The `object_indices` list of `TableEnv.get_arg_indices` (lines 225-229):
all observation rows except the end-effector row. -/
def object_indices : List Nat :=
  (List.range MAX_NUM_OBJECTS).filter (fun i => i ≠ EE_OBSERVATION_IDX)

/-- The list comprehension `[object_indices[obj.idx_object] for obj in
policy_args]` (line 230); `object_indices.get?` models the list indexing and
`none` Python's `IndexError` on the first out-of-range `idx_object`. -/
def argObjIdxs : List ArgObject → Option (List Nat)
  | [] => some []
  | a :: rest =>
    match object_indices.get? a.idx_object with
    | none => none
    | some i =>
      match argObjIdxs rest with
      | none => none
      | some rest2 => some (i :: rest2)

/-- Models `TableEnv.get_arg_indices` (lines 220-236).  `idx_policy` is unused by
the body and omitted.  `masked` models `other_indices` after the in-place
`other_indices[i] = None` assignments. -/
def get_arg_indices (policy_args : List ArgObject) : Option (List Nat) :=
  match argObjIdxs policy_args with
  | none => none
  | some objIdxs =>
    let arg_indices := EE_OBSERVATION_IDX :: objIdxs
    let other_indices : List (Option Nat) :=
      (List.range MAX_NUM_OBJECTS).map some
    let masked := arg_indices.foldl (fun acc i => acc.set i none) other_indices
    some (arg_indices ++ masked.filterMap id)

/-- The per-predicate sampling loop of `TableEnv.reset` (lines 383-388):
`any(prop.sample(...) for _ in range(max_attempts))` calls `sample` until it
first succeeds, at most `max_attempts` times.  Returns the engine state, the
success flag and the number of `sample` calls actually made. -/
def sampleProp (p : Pred Core) : Nat → Core → Core × Bool × Nat
  | 0, c => (c, false, 0)
  | k + 1, c =>
    let s := p.sample c
    if s.2 then (s.1, true, 1)
    else
      let r := sampleProp p k s.1
      (r.1, r.2.1, r.2.2 + 1)

/-- The `all( any( prop.sample ... ) for prop in initial_state )` check of
`TableEnv.reset` (lines 383-391): predicates are sampled in declared order;
the first predicate that exhausts its budget short-circuits the `all`. -/
def sampleAll (maxAttempts : Nat) : List (Pred Core) → Core → Core × Bool
  | [], c => (c, true)
  | p :: ps, c =>
    let r := sampleProp p maxAttempts c
    if r.2.1 then sampleAll maxAttempts ps r.1 else (r.1, false)

/-- The `Null`-argument check of `TableEnv.reset` (lines 376-380). -/
def anyNullArg (skeleton : List (Prim Core)) : Bool :=
  skeleton.any (fun prim => prim.policy_args.any (fun obj => obj.isNull))

/-- Models `all(prop.value(robot, objects, initial_state) for prop in initial_state)`
(lines 399-402). -/
def all_values (props : List (Pred Core)) (c : Core) : Bool :=
  props.all (fun p => p.value c)

/-- One iteration of the `while True` body of `TableEnv.reset`
(lines 356-404): reset the robot, restore the pristine snapshot (`none` if
the engine rejects the id), take the real-world tracker branch if active
(which `break`s immediately), otherwise reset groups and objects, reject on
`Null` skeleton arguments, sample the initial state, settle with
`wait_until_stable(min_iters=1)`, reject if an object fell below the table or
touches the robot base, and accept iff every initial-state proposition
evaluates true.  Returns the resulting engine state and whether the loop
`break`s (`true`) or `continue`s (`false`).  The robot reset and snapshot
restore preceding these steps are performed by `resetAttempt` below. -/
def resetAttemptCore (o : Sim Core RState) (task : TaskSpec Core)
    (maxAttempts : Nat) (c : Core) : Core × Bool :=
  if o.trackerRealArm then (o.trackerUpdatePoses c, true)
  else
    let c3 := o.objectsReset (o.groupsReset c)
    if anyNullArg task.action_skeleton then (c3, false)
    else
      let sr := sampleAll maxAttempts task.initial_state c3
      if sr.2 then
        let c5 := (wait_until_stable o 1 o.waitDefaultMaxIters sr.1).1
        if is_any_object_below_table o c5 || is_any_object_touching_base o c5 then
          (c5, false)
        else if all_values task.initial_state c5 then (c5, true)
        else (c5, false)
      else (sr.1, false)

/-- As `resetAttemptCore`, preceded by the robot reset and the restore of the
pristine snapshot (which can fail engine-side) and lifted to the world. -/
def resetAttempt (o : Sim Core RState) (task : TaskSpec Core)
    (initId maxAttempts : Nat) (w : World Core) :
    Option (World Core × Bool) :=
  match restoreState initId { w with core := o.robotReset w.core } with
  | none => none
  | some w2 =>
    some ({ w2 with core := (resetAttemptCore o task maxAttempts w2.core).1 },
      (resetAttemptCore o task maxAttempts w2.core).2)

/-- The `while True` loop of `TableEnv.reset` (lines 356-404), fuel-indexed:
the Python loop has no iteration cap, so `none` models both non-termination
(fuel exhausted) and an engine error escaping `reset`. -/
def resetLoop (o : Sim Core RState) (task : TaskSpec Core)
    (initId maxAttempts : Nat) : Nat → World Core → Option (World Core)
  | 0, _ => none
  | fuel + 1, w =>
    match resetAttempt o task initId maxAttempts w with
    | none => none
    | some (w2, true) => some w2
    | some (w2, false) => resetLoop o task initId maxAttempts fuel w2

/-- The snapshot-cache drain at the start of `TableEnv.reset`
(lines 350-352): every cached id is released engine-side. -/
def drainStates (e : Env Core RState) : World Core :=
  e.states.foldl (fun w pr => removeState pr.1 w) e.world

/-- Models `TableEnv.reset` (lines 342-406).  `pick` stands for the random draw of
`random.choice(self.tasks)` (reduced modulo the task count; `none` on an
empty task list models the `IndexError` of `random.choice([])`), `fuel`
bounds the unbounded `while True` loop.  Returns the updated environment and
the observation. -/
def reset (o : Sim Core RState) (e : Env Core RState)
    (pick maxAttempts fuel : Nat) :
    Option (Env Core RState × List (List Int)) :=
  match e.tasks.get? (pick % e.tasks.length) with
  | none => none
  | some task =>
    match task.action_skeleton.get? 0 with
    | none => none
    | some prim =>
      match resetLoop o task e.initId maxAttempts fuel (drainStates e) with
      | none => none
      | some w2 =>
        match get_observation o w2.core with
        | none => none
        | some obs =>
          some ({ e with
              world := w2
              states := []
              task := task
              primitive := prim }, obs)

/-- Models `TableEnv.step` (lines 408-428), with the recording hooks (which do not
affect the returned values) omitted: executes the current primitive, reads
the observation and returns
`(obs, float(result.success), not result.truncated, result.truncated)`.
The reward `float(result.success)` is `1.0` or `0.0`, modelled as an
integer. -/
def step (o : Sim Core RState) (e : Env Core RState) (action : List Int) :
    Option (Env Core RState × List (List Int) × Int × Bool × Bool) :=
  let r := e.primitive.exec action e.world.core
  match get_observation o r.1 with
  | none => none
  | some obs =>
    some ({ e with world := { e.world with core := r.1 } },
      obs, if r.2.success then 1 else 0, !r.2.truncated, r.2.truncated)

/-! ### Concrete instances used by witnesses and counterexamples -/

/-- A world whose only engine-side saved state is the pristine snapshot 0. -/
def unitWorld : World Unit := { core := (), snaps := [(0, ())], nextId := 1 }

/-- A proposition that always samples successfully and always holds. -/
def truePred : Pred Unit :=
  { sample := fun c => (c, true), value := fun _ => true }

/-- A proposition that samples successfully but never holds. -/
def falsePred : Pred Unit :=
  { sample := fun c => (c, true), value := fun _ => false }

/-- A proposition whose sampler always fails. -/
def failPred : Pred Unit :=
  { sample := fun c => (c, false), value := fun _ => true }

/-- A primitive with no arguments whose execution always succeeds. -/
def plainPrim : Prim Unit :=
  { policy_args := [],
    exec := fun _ c => (c, { success := true, truncated := false }) }

/-- A task whose initial state is trivially satisfiable. -/
def okTask : TaskSpec Unit :=
  { action_skeleton := [plainPrim], initial_state := [truePred] }

/-- A trivial scene oracle: one non-static object, nothing ever moves, falls
or collides, and all engine transitions are the identity. -/
def baseSim : Sim Unit Unit where
  numObjects := 1
  dim := 1
  is_static := fun _ => false
  moving := fun _ _ => false
  belowTable := fun _ _ => false
  touchingBase := fun _ _ => false
  armUpdateTorques := fun c => c
  gripperUpdateTorques := fun c => c
  stepSimulation := fun c => c
  robotReset := fun c => c
  groupsReset := fun c => c
  objectsReset := fun c => c
  trackerRealArm := false
  trackerUpdatePoses := fun c => c
  removeGrasp := fun c => c
  robotSaved := fun _ => ()
  robotRestore := fun _ c => c
  eeVec := fun _ => [0]
  objVec := fun _ _ => [0]
  waitDefaultMaxIters := 3

/-- An environment over the trivial oracle. -/
def baseEnv : Env Unit Unit :=
  { world := unitWorld, states := [], tasks := [okTask], task := okTask,
    primitive := plainPrim, initId := 0 }

/-! ### Stability monitor: C2, C3 -/

theorem waitCond_true_imp {o : Sim Core RState} {mi ma n : Nat} {c : Core}
    (h : waitCond o mi ma n c = true) : n = 0 ∨ n < ma := by
  simp only [waitCond, Bool.or_eq_true, beq_iff_eq, Bool.and_eq_true,
    decide_eq_true_eq] at h
  rcases h with h | ⟨⟨⟨h, _⟩, _⟩, _⟩
  · exact Or.inl h
  · exact Or.inr h

theorem waitAux_count_le (o : Sim Core RState) (mi ma : Nat) :
    ∀ (fuel : Nat) (c : Core) (n : Nat),
      (waitAux o mi ma fuel c n).2 ≤ max (max ma 1) n := by
  intro fuel
  induction fuel with
  | zero => intro c n; simp [waitAux]
  | succ f ih =>
    intro c n
    by_cases h : waitCond o mi ma n c = true
    · rw [waitAux, if_pos h]
      have hn : n = 0 ∨ n < ma := waitCond_true_imp h
      have hle := ih (o.stepSimulation (o.gripperUpdateTorques (o.armUpdateTorques c))) (n + 1)
      refine le_trans hle ?_
      omega
    · rw [waitAux, if_neg h]
      exact le_max_right _ _

theorem waitAux_exit (o : Sim Core RState) (mi ma : Nat) :
    ∀ (fuel : Nat) (c : Core) (n : Nat), ma < n + fuel → 1 ≤ n + fuel →
      waitCond o mi ma (waitAux o mi ma fuel c n).2
        (waitAux o mi ma fuel c n).1 = false := by
  intro fuel
  induction fuel with
  | zero =>
    intro c n h1 h2
    simp only [Nat.add_zero] at h1 h2
    have hb : (n == 0) = false := by simp; omega
    have hm : decide (n < ma) = false := by simp; omega
    simp [waitAux, waitCond, hb, hm]
  | succ f ih =>
    intro c n h1 h2
    by_cases h : waitCond o mi ma n c = true
    · rw [waitAux, if_pos h]
      exact ih _ (n + 1) (by omega) (by omega)
    · rw [waitAux, if_neg h]
      exact Bool.not_eq_true _ ▸ h

/-- C3 (amended): `TableEnv.wait_until_stable` always terminates and performs
at most `max max_iters 1` simulation iterations; the claimed bound
`max_iters` itself fails for `max_iters = 0` because the loop always runs at
least one iteration. -/
theorem wait_until_stable_iteration_bound (o : Sim Core RState)
    (mi ma : Nat) (c : Core) :
    (wait_until_stable o mi ma c).2 ≤ max ma 1 := by
  have h := waitAux_count_le o mi ma (ma + 1) c 0
  simpa [wait_until_stable] using h

/-- C3 (counterexample): with `max_iters = 0` the loop still performs one
iteration, so the returned count exceeds `max_iters`. -/
theorem wait_until_stable_bound_refuted :
    ¬((wait_until_stable baseSim 0 0 ()).2 ≤ 0) := by decide

/-- C2 (amended): `TableEnv.wait_until_stable` performs at least one
iteration and stops exactly when its loop condition fails: the budget is
reached, or `min_iters` iterations have elapsed and no non-static object is
moving, or some non-static object is below the table plane, or some
non-static object touches the robot base.  The latter two are abort
conditions rather than conditions waited for, which is where the claim as
stated fails. -/
theorem wait_until_stable_stop_conditions (o : Sim Core RState)
    (mi ma : Nat) (c : Core) :
    (wait_until_stable o mi ma c).2 ≠ 0 ∧
      (ma ≤ (wait_until_stable o mi ma c).2 ∨
        (mi ≤ (wait_until_stable o mi ma c).2 ∧
          is_any_object_moving o (wait_until_stable o mi ma c).1 = false) ∨
        is_any_object_below_table o (wait_until_stable o mi ma c).1 = true ∨
        is_any_object_touching_base o (wait_until_stable o mi ma c).1 = true) := by
  have h := waitAux_exit o mi ma (ma + 1) c 0 (by omega) (by omega)
  rw [wait_until_stable]
  simp only [waitCond, Bool.or_eq_false_iff, Bool.and_eq_false_iff,
    beq_eq_false_iff_ne, decide_eq_false_iff_not, Bool.not_eq_false',
    Bool.or_eq_false_iff] at h
  obtain ⟨hne, hrest⟩ := h
  refine ⟨hne, ?_⟩
  rcases hrest with ((hma | ⟨hmi, hmov⟩) | hbelow) | htouch
  · exact Or.inl (by omega)
  · exact Or.inr (Or.inl ⟨by omega, hmov⟩)
  · exact Or.inr (Or.inr (Or.inl hbelow))
  · exact Or.inr (Or.inr (Or.inr htouch))

/-- A scene where the single object is forever moving and below the table:
the loop aborts after one iteration with the budget unspent and the object
still moving. -/
def cex2Sim : Sim Unit Unit :=
  { baseSim with moving := fun _ _ => true, belowTable := fun _ _ => true }

/-- C2 (counterexample): with an object that is moving and below the table,
`wait_until_stable(0, 5)` stops after one iteration although none of "budget
reached" and "all four conditions hold" is true — it stops *because* the
object is below the table, refuting the claimed stop condition. -/
theorem wait_until_stable_claimed_stop_refuted :
    ¬(5 ≤ (wait_until_stable cex2Sim 0 5 ()).2 ∨
        (0 ≤ (wait_until_stable cex2Sim 0 5 ()).2 ∧
          is_any_object_moving cex2Sim (wait_until_stable cex2Sim 0 5 ()).1 = false ∧
          is_any_object_below_table cex2Sim (wait_until_stable cex2Sim 0 5 ()).1 = false ∧
          is_any_object_touching_base cex2Sim (wait_until_stable cex2Sim 0 5 ()).1 = false)) := by
  decide

/-! ### Reset validity: C1 -/

theorem resetAttemptCore_accepted {o : Sim Core RState} {t : TaskSpec Core}
    {maxAtt : Nat} {c : Core} (hT : o.trackerRealArm = false)
    (h : (resetAttemptCore o t maxAtt c).2 = true) :
    all_values t.initial_state (resetAttemptCore o t maxAtt c).1 = true ∧
      is_any_object_below_table o (resetAttemptCore o t maxAtt c).1 = false ∧
      is_any_object_touching_base o (resetAttemptCore o t maxAtt c).1 = false := by
  rcases hr : resetAttemptCore o t maxAtt c with ⟨c2, b⟩
  rw [hr] at h
  dsimp only at h
  subst h
  unfold resetAttemptCore at hr
  rw [hT] at hr
  simp only [Bool.false_eq_true, if_false] at hr
  split at hr
  · injection hr with h1 h2; exact absurd h2 (by simp)
  · split at hr
    · split at hr
      · injection hr with h1 h2; exact absurd h2 (by simp)
      · split at hr
        · rename_i hsafe hval
          injection hr with h1 h2
          subst h1
          have hb := Bool.or_eq_false_iff.mp (Bool.eq_false_iff.mpr hsafe)
          exact ⟨hval, hb.1, hb.2⟩
        · injection hr with h1 h2; exact absurd h2 (by simp)
    · injection hr with h1 h2; exact absurd h2 (by simp)

theorem resetAttempt_accepted {o : Sim Core RState} {t : TaskSpec Core}
    {initId maxAtt : Nat} {w w2 : World Core}
    (hT : o.trackerRealArm = false)
    (h : resetAttempt o t initId maxAtt w = some (w2, true)) :
    all_values t.initial_state w2.core = true ∧
      is_any_object_below_table o w2.core = false ∧
      is_any_object_touching_base o w2.core = false := by
  unfold resetAttempt at h
  cases hr : restoreState initId { w with core := o.robotReset w.core } with
  | none => rw [hr] at h; cases h
  | some w1 =>
    rw [hr] at h
    injection h with h2
    injection h2 with h3 h4
    subst h3
    exact resetAttemptCore_accepted hT h4

theorem resetLoop_accepted {o : Sim Core RState} {t : TaskSpec Core}
    {initId maxAtt : Nat} (hT : o.trackerRealArm = false) :
    ∀ (fuel : Nat) (w w2 : World Core),
      resetLoop o t initId maxAtt fuel w = some w2 →
      all_values t.initial_state w2.core = true ∧
        is_any_object_below_table o w2.core = false ∧
        is_any_object_touching_base o w2.core = false := by
  intro fuel
  induction fuel with
  | zero => intro w w2 h; exact absurd h (by simp [resetLoop])
  | succ f ih =>
    intro w w2 h
    rw [resetLoop] at h
    cases ha : resetAttempt o t initId maxAtt w with
    | none => rw [ha] at h; cases h
    | some p =>
      rw [ha] at h
      obtain ⟨w1, b⟩ := p
      cases b with
      | true =>
        simp only [Option.some.injEq] at h
        subst h
        exact resetAttempt_accepted hT ha
      | false => exact ih _ _ h

/-- C1 (amended): whenever `TableEnv.reset` returns *and the real-world
object-tracker branch is not active* (no object tracker with a real arm), the
returned state is valid: every predicate of the chosen task's initial state
evaluates `value` to true, and no non-static object is below the table plane
or touches the robot base.  The tracker branch (table_env.py lines 362-367)
`break`s out of the loop without any of these checks, which is where the
claim as stated fails. -/
theorem reset_valid (o : Sim Core RState) (e : Env Core RState)
    (pick maxAtt fuel : Nat) (hT : o.trackerRealArm = false)
    (e2 : Env Core RState) (obs : List (List Int))
    (h : reset o e pick maxAtt fuel = some (e2, obs)) :
    all_values e2.task.initial_state e2.world.core = true ∧
      is_any_object_below_table o e2.world.core = false ∧
      is_any_object_touching_base o e2.world.core = false := by
  unfold reset at h
  split at h
  · exact absurd h (by simp)
  · split at h
    · exact absurd h (by simp)
    · split at h
      · exact absurd h (by simp)
      · split at h
        · exact absurd h (by simp)
        · injection h with h2
          injection h2 with h3 h4
          subst h3
          exact resetLoop_accepted hT fuel _ _ (by assumption)

/-- A scene oracle taking the real-world object-tracker branch. -/
def cex1Sim : Sim Unit Unit := { baseSim with trackerRealArm := true }

/-- A task whose single initial-state proposition never holds. -/
def cex1Task : TaskSpec Unit :=
  { action_skeleton := [plainPrim], initial_state := [falsePred] }

/-- An environment for the tracker-branch counterexample. -/
def cex1Env : Env Unit Unit :=
  { baseEnv with tasks := [cex1Task], task := cex1Task }

/-- C1 (counterexample): with an object tracker and a real arm,
`TableEnv.reset` returns through the tracker branch without validating the
initial state, so it can return while an initial-state predicate's `value`
is false — refuting the claim as stated. -/
theorem reset_validity_refuted :
    (reset cex1Sim cex1Env 0 DEFAULT_MAX_ATTEMPTS 1).isSome = true ∧
      Option.map (fun r => all_values r.1.task.initial_state r.1.world.core)
        (reset cex1Sim cex1Env 0 DEFAULT_MAX_ATTEMPTS 1) = some false :=
  ⟨rfl, rfl⟩

/-- C1 (witness): on the trivial oracle, `reset` succeeds and the amended
theorem applies with its hypotheses discharged. -/
theorem reset_valid_witness :
    all_values baseEnv.task.initial_state baseEnv.world.core = true ∧
      is_any_object_below_table baseSim baseEnv.world.core = false ∧
      is_any_object_touching_base baseSim baseEnv.world.core = false :=
  reset_valid baseSim baseEnv 0 DEFAULT_MAX_ATTEMPTS 1 rfl baseEnv
    [[0], [0], [0], [0], [0]] rfl

/-! ### Sampling budget and restart: C4 -/

theorem sampleProp_count_le (p : Pred Core) :
    ∀ (k : Nat) (c : Core), (sampleProp p k c).2.2 ≤ k := by
  intro k
  induction k with
  | zero => intro c; simp [sampleProp]
  | succ n ih =>
    intro c
    rw [sampleProp]
    by_cases hs : (p.sample c).2 = true
    · simp [hs]
    · simp only [Bool.not_eq_true] at hs
      simp only [hs, Bool.false_eq_true, if_false]
      have := ih (p.sample c).1
      omega

/-- C4: each initial-state predicate's `sample` is called at most
`max_attempts` times (default `DEFAULT_MAX_ATTEMPTS = 10`), and when a
predicate exhausts its budget the whole reset attempt yields `continue`
(`break = false`), so the loop restarts from the robot reset and snapshot
restore with one unit of fuel consumed; the failure is folded into the next
loop iteration instead of being surfaced by `reset`. -/
theorem reset_sampling_budget_and_restart (o : Sim Core RState)
    (t : TaskSpec Core) (initId fuel : Nat) (w w2 : World Core)
    (hT : o.trackerRealArm = false)
    (hRestore : restoreState initId { w with core := o.robotReset w.core } =
      some w2)
    (hNull : anyNullArg t.action_skeleton = false)
    (hFail : (sampleAll DEFAULT_MAX_ATTEMPTS t.initial_state
        (o.objectsReset (o.groupsReset w2.core))).2 = false) :
    DEFAULT_MAX_ATTEMPTS = 10 ∧
      (∀ (p : Pred Core) (k : Nat) (c : Core), (sampleProp p k c).2.2 ≤ k) ∧
      resetAttempt o t initId DEFAULT_MAX_ATTEMPTS w =
        some ({ w2 with core := (sampleAll DEFAULT_MAX_ATTEMPTS t.initial_state
          (o.objectsReset (o.groupsReset w2.core))).1 }, false) ∧
      resetLoop o t initId DEFAULT_MAX_ATTEMPTS (fuel + 1) w =
        resetLoop o t initId DEFAULT_MAX_ATTEMPTS fuel
          { w2 with core := (sampleAll DEFAULT_MAX_ATTEMPTS t.initial_state
            (o.objectsReset (o.groupsReset w2.core))).1 } := by
  have hCore : resetAttemptCore o t DEFAULT_MAX_ATTEMPTS w2.core =
      ((sampleAll DEFAULT_MAX_ATTEMPTS t.initial_state
        (o.objectsReset (o.groupsReset w2.core))).1, false) := by
    unfold resetAttemptCore
    rw [hT]
    simp only [Bool.false_eq_true, if_false, hNull, hFail]
  have hAttempt : resetAttempt o t initId DEFAULT_MAX_ATTEMPTS w =
      some ({ w2 with core := (sampleAll DEFAULT_MAX_ATTEMPTS t.initial_state
        (o.objectsReset (o.groupsReset w2.core))).1 }, false) := by
    unfold resetAttempt
    rw [hRestore]
    dsimp only
    rw [hCore]
  refine ⟨rfl, fun p k c => sampleProp_count_le p k c, hAttempt, ?_⟩
  rw [resetLoop, hAttempt]

/-- A task whose initial state can never be sampled. -/
def failTask : TaskSpec Unit :=
  { action_skeleton := [plainPrim], initial_state := [failPred] }

/-- C4 (witness): on the trivial oracle with an unsatisfiable sampler, the
sampling-budget-and-restart theorem applies with its hypotheses
discharged. -/
theorem reset_sampling_budget_witness :
    DEFAULT_MAX_ATTEMPTS = 10 ∧
      (∀ (p : Pred Unit) (k : Nat) (c : Unit), (sampleProp p k c).2.2 ≤ k) ∧
      resetAttempt baseSim failTask 0 DEFAULT_MAX_ATTEMPTS unitWorld =
        some ({ unitWorld with
          core := (sampleAll DEFAULT_MAX_ATTEMPTS failTask.initial_state
            (baseSim.objectsReset (baseSim.groupsReset unitWorld.core))).1 },
          false) ∧
      resetLoop baseSim failTask 0 DEFAULT_MAX_ATTEMPTS 1 unitWorld =
        resetLoop baseSim failTask 0 DEFAULT_MAX_ATTEMPTS 0
          { unitWorld with
            core := (sampleAll DEFAULT_MAX_ATTEMPTS failTask.initial_state
              (baseSim.objectsReset (baseSim.groupsReset unitWorld.core))).1 } :=
  reset_sampling_budget_and_restart baseSim failTask 0 0 unitWorld unitWorld
    rfl rfl rfl rfl

/-! ### Step contract: C5 -/

/-- C5: `TableEnv.step` executes the current primitive and, when the
observation read succeeds, returns reward `1` when `result.success` and `0`
otherwise, `terminated = not result.truncated` and
`truncated = result.truncated`, together with the post-execution
observation. -/
theorem step_reward_termination (o : Sim Core RState) (e : Env Core RState)
    (action : List Int) :
    step o e action =
      (get_observation o (e.primitive.exec action e.world.core).1).map
        (fun obs =>
          ({ e with world :=
              { e.world with core := (e.primitive.exec action e.world.core).1 } },
            obs,
            (if (e.primitive.exec action e.world.core).2.success then (1 : Int)
              else 0),
            !(e.primitive.exec action e.world.core).2.truncated,
            (e.primitive.exec action e.world.core).2.truncated)) := by
  unfold step
  cases h : get_observation o (e.primitive.exec action e.world.core).1 <;>
    simp [h]

/-! ### Observation shape: C6 -/

/-- C6: for a well-formed environment — at least one registered object (the
constructor requires a `table` object, line 130) and few enough objects that
`observation[i] = obj_state.vector` stays in bounds, with state vectors of
the advertised width — `TableEnv.get_observation` returns the
`MAX_NUM_OBJECTS`-row matrix whose row `EE_OBSERVATION_IDX = 0` is the
end-effector state vector, whose next rows are the objects' state vectors in
registry order, and whose remaining rows are all-zero. -/
theorem get_observation_shape (o : Sim Core RState) (c : Core)
    (h1 : 1 ≤ o.numObjects) (h2 : o.numObjects + 1 ≤ MAX_NUM_OBJECTS)
    (hee : (o.eeVec c).length = o.dim)
    (hobj : ∀ i, (o.objVec c i).length = o.dim) :
    get_observation o c =
      some ((o.eeVec c :: (List.range o.numObjects).map (o.objVec c)) ++
        List.replicate (MAX_NUM_OBJECTS - (o.numObjects + 1))
          (List.replicate o.dim 0)) ∧
      ((o.eeVec c :: (List.range o.numObjects).map (o.objVec c)) ++
        List.replicate (MAX_NUM_OBJECTS - (o.numObjects + 1))
          (List.replicate o.dim 0)).length = MAX_NUM_OBJECTS := by
  have hrows : object_states o c =
      o.eeVec c :: (List.range o.numObjects).map (o.objVec c) := by
    rw [object_states, if_neg (by omega)]
  have hlen : (object_states o c).length = o.numObjects + 1 := by
    rw [hrows]; simp
  constructor
  · rw [get_observation]
    rw [if_pos]
    · rw [hrows]
      simp only [List.length_cons, List.length_map, List.length_range]
    · constructor
      · omega
      · rw [hrows]
        simp only [List.all_cons, List.all_eq_true, List.mem_map,
          List.mem_range, decide_eq_true_eq, Bool.and_eq_true]
        exact ⟨hee, fun r hr => by obtain ⟨i, -, rfl⟩ := hr; exact hobj i⟩
  · simp only [List.length_append, List.length_cons, List.length_map,
      List.length_range, List.length_replicate]
    omega

/-- C6 (witness): the amended-free shape theorem applied to the trivial
one-object oracle. -/
theorem get_observation_shape_witness :
    get_observation baseSim () =
      some ((baseSim.eeVec () ::
        (List.range baseSim.numObjects).map (baseSim.objVec ())) ++
        List.replicate (MAX_NUM_OBJECTS - (baseSim.numObjects + 1))
          (List.replicate baseSim.dim 0)) ∧
      ((baseSim.eeVec () ::
        (List.range baseSim.numObjects).map (baseSim.objVec ())) ++
        List.replicate (MAX_NUM_OBJECTS - (baseSim.numObjects + 1))
          (List.replicate baseSim.dim 0)).length = MAX_NUM_OBJECTS :=
  get_observation_shape baseSim () (by decide) (by decide) rfl (fun i => rfl)

/-! ### State snapshot round trip: C7 -/

/-- Modelled from the spec: `robot.get_state()` / `robot.set_state(blob)`
(`sim/robot.py`, not part of this source slice) snapshot and restore the
auxiliary robot state exactly, so restoring the blob saved in a state leaves
that state unchanged ("`get_state()` followed immediately by `set_state()`
... reproduces the same observation"). -/
def RobotRoundTrip (o : Sim Core RState) : Prop :=
  ∀ c : Core, o.robotRestore (o.robotSaved c) c = c

/-- C7: calling `TableEnv.get_state` and then immediately `TableEnv.set_state`
with the returned handle succeeds and reproduces the same observation. -/
theorem get_state_set_state_roundtrip (o : Sim Core RState)
    (e : Env Core RState) (hR : RobotRoundTrip o) :
    ∃ e2 : Env Core RState,
      set_state o (get_state o e).1 (get_state o e).2 = some (e2, true) ∧
        get_observation o e2.world.core = get_observation o e.world.core := by
  refine ⟨⟨⟨e.world.core, (e.world.nextId, e.world.core) :: e.world.snaps,
      e.world.nextId + 1⟩,
      (e.world.nextId, o.robotSaved e.world.core) :: e.states,
      e.tasks, e.task, e.primitive, e.initId⟩, ?_, rfl⟩
  simp [set_state, get_state, saveState, restoreState, hR e.world.core]

/-- C7 (witness): the round trip on the trivial oracle, whose robot
state save/restore is the identity. -/
theorem get_state_set_state_roundtrip_witness :
    ∃ e2 : Env Unit Unit,
      set_state baseSim (get_state baseSim baseEnv).1
          (get_state baseSim baseEnv).2 = some (e2, true) ∧
        get_observation baseSim e2.world.core =
          get_observation baseSim baseEnv.world.core :=
  get_state_set_state_roundtrip baseSim baseEnv (fun _ => rfl)

/-! ### Snapshot cache invariant: C8, C9 -/

/-- Cache-validity invariant: every snapshot id held in `self._states`
corresponds to a still-valid engine-side save. -/
def CacheValid (e : Env Core RState) : Prop :=
  ∀ pr ∈ e.states, (List.lookup pr.1 e.world.snaps).isSome = true

theorem lookup_filter_ne_self {β : Type} (l : List (Nat × β)) (id : Nat) :
    List.lookup id (l.filter (fun pr => pr.1 != id)) = none := by
  rw [List.lookup_eq_none_iff]
  intro p hp
  have h2 := (List.mem_filter.mp hp).2
  simp only [bne_iff_ne] at h2 ⊢
  exact Ne.symm h2

theorem lookup_filter_none {β : Type} {l : List (Nat × β)}
    (q : Nat × β → Bool) {id : Nat} (h : List.lookup id l = none) :
    List.lookup id (l.filter q) = none := by
  rw [List.lookup_eq_none_iff] at h ⊢
  intro p hp
  exact h p (List.mem_filter.mp hp).1

theorem removeState_lookup_self (w : World Core) (id : Nat) :
    List.lookup id (removeState id w).snaps = none :=
  lookup_filter_ne_self _ _

theorem removeState_lookup_none {w : World Core} {id : Nat} (j : Nat)
    (h : List.lookup id w.snaps = none) :
    List.lookup id (removeState j w).snaps = none :=
  lookup_filter_none _ h

theorem foldl_remove_lookup_none (prs : List (Nat × RState)) :
    ∀ (w : World Core) (id : Nat), List.lookup id w.snaps = none →
      List.lookup id
        ((prs.foldl (fun w2 pr => removeState pr.1 w2) w)).snaps = none := by
  induction prs with
  | nil => intro w id h; simpa using h
  | cons q rest ih =>
    intro w id h
    simp only [List.foldl_cons]
    exact ih _ _ (removeState_lookup_none q.1 h)

theorem foldl_remove_lookup_mem (prs : List (Nat × RState)) :
    ∀ (w : World Core), ∀ pr ∈ prs,
      List.lookup pr.1
        ((prs.foldl (fun w2 q => removeState q.1 w2) w)).snaps = none := by
  induction prs with
  | nil => intro w pr h; simp at h
  | cons q rest ih =>
    intro w pr h
    simp only [List.foldl_cons]
    rcases List.mem_cons.mp h with rfl | hmem
    · exact foldl_remove_lookup_none rest _ _ (removeState_lookup_self w pr.1)
    · exact ih _ pr hmem

theorem restoreState_snaps {w w2 : World Core} {id : Nat}
    (h : restoreState id w = some w2) : w2.snaps = w.snaps := by
  unfold restoreState at h
  cases hl : List.lookup id w.snaps with
  | none => rw [hl] at h; cases h
  | some c =>
    rw [hl] at h
    injection h with h2
    rw [← h2]

theorem resetAttempt_snaps {o : Sim Core RState} {t : TaskSpec Core}
    {initId maxAtt : Nat} {w w2 : World Core} {b : Bool}
    (h : resetAttempt o t initId maxAtt w = some (w2, b)) :
    w2.snaps = w.snaps := by
  unfold resetAttempt at h
  cases hr : restoreState initId { w with core := o.robotReset w.core } with
  | none => rw [hr] at h; cases h
  | some w1 =>
    rw [hr] at h
    injection h with h2
    injection h2 with h3 h4
    subst h3
    show w1.snaps = w.snaps
    exact restoreState_snaps hr

theorem resetLoop_snaps {o : Sim Core RState} {t : TaskSpec Core}
    {initId maxAtt : Nat} :
    ∀ (fuel : Nat) {w w2 : World Core},
      resetLoop o t initId maxAtt fuel w = some w2 → w2.snaps = w.snaps := by
  intro fuel
  induction fuel with
  | zero => intro w w2 h; exact absurd h (by simp [resetLoop])
  | succ f ih =>
    intro w w2 h
    rw [resetLoop] at h
    cases ha : resetAttempt o t initId maxAtt w with
    | none => rw [ha] at h; cases h
    | some p =>
      rw [ha] at h
      obtain ⟨w1, b⟩ := p
      cases b with
      | false => exact (ih h).trans (resetAttempt_snaps ha)
      | true =>
        injection h with h2
        subst h2
        exact resetAttempt_snaps ha

/-- C8: (i) whenever `TableEnv.reset` returns, the snapshot cache is empty
and every id it used to hold has been released engine-side (its engine-side
save no longer resolves), so no state handle obtained before a reset
survives it; (ii) the invariant that cached snapshot ids name still-valid
engine-side saves is preserved by `get_state`, `set_state` and re-established
(trivially, on an empty cache) by `reset`. -/
theorem reset_drains_state_cache (o : Sim Core RState) (e : Env Core RState)
    (pick maxAtt fuel : Nat) :
    (∀ (e2 : Env Core RState) (obs : List (List Int)),
        reset o e pick maxAtt fuel = some (e2, obs) →
          e2.states = [] ∧
            ∀ pr ∈ e.states, List.lookup pr.1 e2.world.snaps = none) ∧
      (CacheValid e → CacheValid (get_state o e).1) ∧
      (∀ (stateId : Nat) (e2 : Env Core RState) (b : Bool),
        set_state o e stateId = some (e2, b) → CacheValid e → CacheValid e2) ∧
      (∀ (e2 : Env Core RState) (obs : List (List Int)),
        reset o e pick maxAtt fuel = some (e2, obs) → CacheValid e2) := by
  have key : ∀ (e2 : Env Core RState) (obs : List (List Int)),
      reset o e pick maxAtt fuel = some (e2, obs) →
        e2.states = [] ∧
          ∀ pr ∈ e.states, List.lookup pr.1 e2.world.snaps = none := by
    intro e2 obs h
    unfold reset at h
    cases ht : e.tasks.get? (pick % e.tasks.length) with
    | none => rw [ht] at h; cases h
    | some task =>
      rw [ht] at h
      dsimp only at h
      cases hp : task.action_skeleton.get? 0 with
      | none => rw [hp] at h; cases h
      | some prim =>
        rw [hp] at h
        dsimp only at h
        cases hl : resetLoop o task e.initId maxAtt fuel (drainStates e) with
        | none => rw [hl] at h; cases h
        | some w2 =>
          rw [hl] at h
          dsimp only at h
          cases ho : get_observation o w2.core with
          | none => rw [ho] at h; cases h
          | some obs2 =>
            rw [ho] at h
            dsimp only at h
            injection h with h2
            injection h2 with h3 h4
            subst h3
            refine ⟨rfl, fun pr hpr => ?_⟩
            have hsn : w2.snaps = (drainStates e).snaps :=
              resetLoop_snaps fuel hl
            show List.lookup pr.1 w2.snaps = none
            rw [hsn]
            exact foldl_remove_lookup_mem e.states e.world pr hpr
  refine ⟨key, ?_, ?_, fun e2 obs h => ?_⟩
  · intro hcv pr hpr
    rcases List.mem_cons.mp hpr with rfl | hmem
    · simp [get_state, saveState]
    · simp only [get_state, saveState, List.lookup_cons]
      split
      · simp
      · exact hcv pr hmem
  · intro stateId e2 b h hcv
    unfold set_state at h
    cases hr : restoreState stateId
        { e.world with core := o.removeGrasp e.world.core } with
    | none => rw [hr] at h; cases h
    | some w2 =>
      rw [hr] at h
      cases hb : List.lookup stateId e.states with
      | none => rw [hb] at h; cases h
      | some blob =>
        rw [hb] at h
        injection h with h2
        injection h2 with h3 h4
        subst h3
        intro pr hpr
        show (List.lookup pr.1 w2.snaps).isSome = true
        rw [restoreState_snaps hr]
        exact hcv pr hpr
  · intro pr hpr
    rw [(key e2 obs h).1] at hpr
    simp at hpr

/-- An environment holding one cached snapshot (id 1) alongside the pristine
snapshot (id 0). -/
def c8Env : Env Unit Unit :=
  { baseEnv with
    states := [(1, ())],
    world := { core := (), snaps := [(1, ()), (0, ())], nextId := 2 } }

/-- The environment produced by `reset` on `c8Env`. -/
def c8After : Env Unit Unit :=
  { world := { core := (), snaps := [(0, ())], nextId := 2 }, states := [],
    tasks := [okTask], task := okTask, primitive := plainPrim, initId := 0 }

/-- C8 (witness): on a concrete environment with one cached snapshot, `reset`
empties the cache and releases the engine-side save, and `get_state`
preserves cache validity. -/
theorem reset_drains_state_cache_witness :
    c8After.states = [] ∧
      List.lookup 1 c8After.world.snaps = none ∧
      CacheValid (get_state baseSim c8Env).1 := by
  have h := reset_drains_state_cache baseSim c8Env 0 DEFAULT_MAX_ATTEMPTS 1
  have hk := h.1 c8After [[0], [0], [0], [0], [0]] rfl
  exact ⟨hk.1, hk.2 (1, ()) (by decide),
    h.2.1 (by unfold CacheValid; decide)⟩

/-- C9: `TableEnv.set_state` never signals failure through its return value —
whenever it returns, it returns `True` — and for every handle in the cache
whose engine-side save is valid (which `CacheValid` guarantees for all
handles issued by `get_state` since the last reset), it succeeds and returns
`True`. -/
theorem set_state_returns_true (o : Sim Core RState) (e : Env Core RState)
    (stateId : Nat) :
    (∀ (e2 : Env Core RState) (b : Bool),
        set_state o e stateId = some (e2, b) → b = true) ∧
      (∀ blob : RState, CacheValid e →
        List.lookup stateId e.states = some blob →
        ∃ e2, set_state o e stateId = some (e2, true)) := by
  constructor
  · intro e2 b h
    unfold set_state at h
    cases hr : restoreState stateId
        { e.world with core := o.removeGrasp e.world.core } with
    | none => rw [hr] at h; cases h
    | some w2 =>
      rw [hr] at h
      cases hb : List.lookup stateId e.states with
      | none => rw [hb] at h; cases h
      | some blob =>
        rw [hb] at h
        injection h with h2
        injection h2 with h3 h4
        exact h4.symm
  · intro blob hcv hblob
    have hmem : (stateId, blob) ∈ e.states := by
      obtain ⟨l1, l2, hsplit, -⟩ := List.lookup_eq_some_iff.mp hblob
      rw [hsplit]
      simp
    obtain ⟨c, hc⟩ := Option.isSome_iff_exists.mp (hcv (stateId, blob) hmem)
    have hres : restoreState stateId
        { e.world with core := o.removeGrasp e.world.core } =
        some { e.world with core := c } := by
      unfold restoreState
      dsimp only
      rw [hc]
    refine ⟨⟨⟨o.robotRestore blob c, e.world.snaps, e.world.nextId⟩,
      e.states, e.tasks, e.task, e.primitive, e.initId⟩, ?_⟩
    unfold set_state
    rw [hres]
    dsimp only
    rw [hblob]

/-- C9 (witness): on the concrete cached-snapshot environment, `set_state`
with the cached handle returns `True`. -/
theorem set_state_returns_true_witness :
    ∃ e2, set_state baseSim c8Env 1 = some (e2, true) :=
  (set_state_returns_true baseSim c8Env 1).2 ()
    (by unfold CacheValid; decide) rfl

/-! ### Argument index permutation: C10 -/

/-- The leading segment of `get_arg_indices`: the end-effector row followed
by the observation rows of the argument objects (row `idx_object + 1`, since
row 0 is the end-effector) in argument order. -/
def ee_and_args (args : List ArgObject) : List Nat :=
  EE_OBSERVATION_IDX :: args.map (fun a => a.idx_object + 1)

/-- The trailing segment of `get_arg_indices`: all remaining observation
rows, in ascending order. -/
def rest_indices (args : List ArgObject) : List Nat :=
  (List.range MAX_NUM_OBJECTS).filter (fun i => decide (i ∉ ee_and_args args))

theorem object_indices_get? {idx : Nat} (h : idx < MAX_NUM_OBJECTS - 1) :
    object_indices.get? idx = some (idx + 1) := by
  have h4 : idx < 4 := h
  interval_cases idx <;> decide

theorem argObjIdxs_eq (args : List ArgObject)
    (h : ∀ a ∈ args, a.idx_object < MAX_NUM_OBJECTS - 1) :
    argObjIdxs args = some (args.map (fun a => a.idx_object + 1)) := by
  induction args with
  | nil => rfl
  | cons a rest ih =>
    rw [argObjIdxs]
    rw [object_indices_get? (h a (by simp))]
    rw [ih (fun b hb => h b (by simp [hb]))]
    rfl

theorem set_range_map (n : Nat) (g : Nat → Option Nat) (p : Nat) :
    ((List.range n).map g).set p none =
      (List.range n).map (fun i => if i = p then none else g i) := by
  apply List.ext_getElem?
  intro j
  rw [List.getElem?_set]
  by_cases hpj : p = j
  · subst hpj
    rw [if_pos rfl]
    by_cases hp : p < n
    · rw [if_pos (by simpa using hp)]
      rw [List.getElem?_map, List.getElem?_range hp]
      simp
    · rw [if_neg (by simpa using hp)]
      rw [List.getElem?_map, List.getElem?_eq_none (by simpa using hp)]
      rfl
  · rw [if_neg hpj]
    rw [List.getElem?_map, List.getElem?_map]
    by_cases hj : j < n
    · rw [List.getElem?_range hj]
      simp [Ne.symm hpj]
    · rw [List.getElem?_eq_none (l := List.range n) (by simpa using hj)]
      rfl

theorem foldl_set_none (ps : List Nat) :
    ∀ (n : Nat) (g : Nat → Option Nat),
      ps.foldl (fun acc i => acc.set i none) ((List.range n).map g) =
        (List.range n).map (fun i => if i ∈ ps then none else g i) := by
  induction ps with
  | nil => intro n g; simp
  | cons p rest ih =>
    intro n g
    simp only [List.foldl_cons]
    rw [set_range_map n g p]
    rw [ih n (fun i => if i = p then none else g i)]
    refine List.map_congr_left (fun i _ => ?_)
    by_cases h1 : i ∈ rest
    · simp [h1, List.mem_cons]
    · by_cases h2 : i = p
      · simp [h1, h2, List.mem_cons]
      · simp [h1, h2, List.mem_cons]

theorem filterMap_if_mem (ps : List Nat) (l : List Nat) :
    List.filterMap (fun i => if i ∈ ps then none else some i) l =
      l.filter (fun i => decide (i ∉ ps)) := by
  induction l with
  | nil => rfl
  | cons a rest ih =>
    by_cases h : a ∈ ps
    · simp [List.filterMap_cons, List.filter_cons, h, ih]
    · simp [List.filterMap_cons, List.filter_cons, h, ih]

theorem nodup_append_filter_perm (ps : List Nat) (n : Nat) (hnd : ps.Nodup)
    (hsub : ∀ x ∈ ps, x < n) :
    (ps ++ (List.range n).filter (fun i => decide (i ∉ ps))).Perm
      (List.range n) := by
  have h1 := List.filter_append_perm (fun i => decide (i ∈ ps)) (List.range n)
  have h2 : ps.Perm ((List.range n).filter (fun i => decide (i ∈ ps))) := by
    apply List.perm_of_nodup_nodup_toFinset_eq hnd
      ((List.nodup_range n).filter _)
    ext x
    simp only [List.mem_toFinset, List.mem_filter, List.mem_range,
      decide_eq_true_eq]
    exact ⟨fun hx => ⟨hsub x hx, hx⟩, fun hx => hx.2⟩
  have h3 : (List.range n).filter (fun i => !decide (i ∈ ps)) =
      (List.range n).filter (fun i => decide (i ∉ ps)) := by
    apply List.filter_congr
    intro i _
    by_cases h : i ∈ ps <;> simp [h]
  exact (h2.append_right _).trans (h3 ▸ h1)

/-- C10: for pairwise-distinct `idx_object` values, all below
`MAX_NUM_OBJECTS - 1`, `TableEnv.get_arg_indices` succeeds and returns the
end-effector row `EE_OBSERVATION_IDX = 0`, followed by the observation rows
(`idx_object + 1`) of the argument objects in argument order, followed by
all remaining observation rows in ascending order; the result is a
permutation of `{0, ..., MAX_NUM_OBJECTS - 1}`. -/
theorem get_arg_indices_perm (args : List ArgObject)
    (hnd : (args.map (fun a => a.idx_object)).Nodup)
    (hlt : ∀ a ∈ args, a.idx_object < MAX_NUM_OBJECTS - 1) :
    get_arg_indices args = some (ee_and_args args ++ rest_indices args) ∧
      (ee_and_args args ++ rest_indices args).Perm
        (List.range MAX_NUM_OBJECTS) ∧
      List.Pairwise (· < ·) (rest_indices args) := by
  have hnd2 : (ee_and_args args).Nodup := by
    unfold ee_and_args
    rw [List.nodup_cons]
    refine ⟨?_, ?_⟩
    · simp only [EE_OBSERVATION_IDX, List.mem_map, not_exists]
      intro a
      omega
    · have hmm : args.map (fun a => a.idx_object + 1) =
          (args.map (fun a => a.idx_object)).map (· + 1) := by
        simp [List.map_map, Function.comp]
      rw [hmm]
      exact hnd.map (fun x y hxy => by omega)
  have hsub : ∀ x ∈ ee_and_args args, x < MAX_NUM_OBJECTS := by
    unfold ee_and_args
    intro x hx
    rcases List.mem_cons.mp hx with rfl | hx2
    · decide
    · obtain ⟨a, ha, rfl⟩ := List.mem_map.mp hx2
      have h5 : MAX_NUM_OBJECTS = 5 := rfl
      have := hlt a ha
      rw [h5] at this ⊢
      omega
  refine ⟨?_, nodup_append_filter_perm _ _ hnd2 hsub,
    (List.pairwise_lt_range MAX_NUM_OBJECTS).filter _⟩
  unfold get_arg_indices
  rw [argObjIdxs_eq args hlt]
  dsimp only
  rw [foldl_set_none]
  rw [List.filterMap_map]
  rw [Function.id_comp]
  rw [filterMap_if_mem]
  rfl

/-- Concrete policy arguments with distinct in-range object indices. -/
def c10Args : List ArgObject :=
  [{ idx_object := 2, isNull := false }, { idx_object := 0, isNull := false }]

/-- C10 (witness): for arguments with `idx_object` 2 and 0, the returned
index list is `[0, 3, 1, 2, 4]` — end-effector first, argument rows in
order, remaining rows ascending — a permutation of `{0, ..., 4}`. -/
theorem get_arg_indices_perm_witness :
    get_arg_indices c10Args =
        some (ee_and_args c10Args ++ rest_indices c10Args) ∧
      (ee_and_args c10Args ++ rest_indices c10Args).Perm
        (List.range MAX_NUM_OBJECTS) ∧
      List.Pairwise (· < ·) (rest_indices c10Args) :=
  get_arg_indices_perm c10Args (by decide) (by decide)

end TableEnvModel
